import Mathlib

/-!
Verification development for the Tetris autonomous placement engine of this
repository (`src/Tetris/tetris.py` and `src/Tetris/tetris_player.py`).

Modelling conventions, fixed once for the whole file:

* A grid cell is a `Bool` (`true` = occupied).  The Python board stores a
  color string or `0` in each cell, but every piece of game logic only tests
  cell truthiness, so occupancy is the faithful abstraction.
* Shapes (rotation-state matrices) are `List (List Bool)`.
* Python `enumerate`-style scans over a matrix are rendered as scans over
  `List.range` of the row/column counts with `List.getD` lookups, which
  agrees with `enumerate` on every list.
* Python float arithmetic in the board evaluator is modelled by exact
  rationals (`ℚ`); the evaluator's weights are small decimal literals and
  the claims under consideration concern the shape of the scoring formula,
  not float rounding.
* `random`-driven spawning is modelled by passing the spawned shape as an
  explicit argument.
* The board dimensions come from `__init__`: `width = 300`, `height = 600`,
  `square_size = 30`, hence `grid_width = 10`, `grid_height = 20`.
-/

/-- `grid_width` from `Tetris.__init__`: `300 // 30 = 10`. -/
def grid_width : Nat := 300 / 30

/-- `grid_height` from `Tetris.__init__`: `600 // 30 = 20`. -/
def grid_height : Nat := 600 / 30

/-- The guarded cell read `y < len(grid) and x < len(grid[y]) and grid[y][x]`
used throughout the Python sources: out-of-range reads count as empty. -/
def cellAt (grid : List (List Bool)) (y x : Nat) : Bool :=
  (grid.getD y []).getD x false

/-- Cell read at `Int` coordinates; callers guard `0 ≤ y` (and the in-range
conditions) exactly where the Python sources do. -/
def cellAtI (grid : List (List Bool)) (y x : Int) : Bool :=
  cellAt grid y.toNat x.toNat

/-- Python `all(row)`: a row is full iff every cell is truthy
(vacuously true on an empty row, as in Python). -/
def rowFull (row : List Bool) : Bool :=
  row.all (fun c => c)

/-- `Tetris.check_collision`, abstracted over its inputs.  For every occupied
local cell `(x, y)` of `shape`, with `grid_x = cx + x`, `grid_y = cy + y`:
collision iff `grid_x < 0`, `grid_x ≥ gridW`, `grid_y ≥ gridH`, or
(`grid_y ≥ 0` and the board cell at `(grid_y, grid_x)` is occupied). -/
def collides (gridW gridH : Nat) (grid shape : List (List Bool)) (cx cy : Int) : Bool :=
  (List.range shape.length).any fun y =>
    (List.range ((shape.getD y []).length)).any fun x =>
      (shape.getD y []).getD x false &&
        (decide (cx + (x : Int) < 0) || decide ((gridW : Int) ≤ cx + (x : Int)) ||
         decide ((gridH : Int) ≤ cy + (y : Int)) ||
         (decide ((0 : Int) ≤ cy + (y : Int)) && cellAtI grid (cy + (y : Int)) (cx + (x : Int))))

/-- The rotation operator
`[list(reversed(col)) for col in zip(*shape)]`: transpose (truncating to the
shortest row, as `zip` does) and reverse each resulting row. -/
def pyZipLen : List (List Bool) → Nat
  | [] => 0
  | [r] => r.length
  | r :: rs => min r.length (pyZipLen rs)

/-- 90° rotation: row `i` of the result is column `i` of the input read
bottom-to-top. -/
def rotate90 (shape : List (List Bool)) : List (List Bool) :=
  (List.range (pyZipLen shape)).map fun i =>
    (shape.map fun row => row.getD i false).reverse

/-- A Placement Search result, the dict
`{'rotation_target_state': int, 'x': int, 'score': float}` built by
`Player.get_possible_moves`. -/
structure MoveC where
  rotationTargetState : Nat
  x : Int
  score : ℚ
deriving DecidableEq, Repr

/-- The live game state: the fields of `Tetris`/`Player` that the placement
engine reads or writes (UI fields such as canvases and labels are omitted;
`next_shape` is display-only and never feeds back into the logic). -/
structure PState where
  grid : List (List Bool)
  currentShape : List (List Bool)
  currentX : Int
  currentY : Int
  score : Nat
  gameRunning : Bool
  bestMove : Option MoveC
  currentRotationCount : Nat
deriving DecidableEq, Repr

/-- `self.check_collision()` on the live state. -/
def check_collision (st : PState) : Bool :=
  collides grid_width grid_height st.grid st.currentShape st.currentX st.currentY

/-- `Tetris.move_sideways(direction)` (inherited unchanged by `Player`):
shift `current_x`, then revert the shift if the result collides. -/
def move_sideways (st : PState) (direction : Int) : PState :=
  let st1 : PState := { st with currentX := st.currentX + direction }
  if check_collision st1 then { st1 with currentX := st1.currentX - direction } else st1

/-- The wall-kick loop of `Player.rotate_shape`: for each `dx` in turn, shift
by `dx`, keep the shift (and bump the rotation counter) if collision-free,
otherwise revert the shift and try the next offset; when all offsets are
exhausted restore the saved shape and anchor. -/
def tryKicks (st : PState) (oldShape : List (List Bool)) (oldX : Int) :
    List Int → PState
  | [] => { st with currentShape := oldShape, currentX := oldX }
  | dx :: rest =>
    let st' : PState := { st with currentX := st.currentX + dx }
    if !check_collision st' then
      { st' with currentRotationCount := (st'.currentRotationCount + 1) % 4 }
    else
      tryKicks { st' with currentX := st'.currentX - dx } oldShape oldX rest

/-- `Player.rotate_shape`: guard on `game_running` and a live shape, apply the
rotation operator, and on collision run the wall-kick sequence `+1, -2, +2, -1`
(the `try/except IndexError` in the source is dead code: the comprehension
cannot raise). -/
def rotate_shape (st : PState) : PState :=
  if !st.gameRunning || st.currentShape.isEmpty then st
  else
    let st1 : PState := { st with currentShape := rotate90 st.currentShape }
    if check_collision st1 then
      tryKicks st1 st.currentShape st.currentX [1, -2, 2, -1]
    else
      { st1 with currentRotationCount := (st1.currentRotationCount + 1) % 4 }

/-- Write `true` into cell `(y, x)` of a grid (`List.set` is a no-op out of
range; the Python call sites guard the coordinates or are in range by the
lock invariant). -/
def setCell (grid : List (List Bool)) (y x : Nat) : List (List Bool) :=
  grid.set y ((grid.getD y []).set x true)

/-- `setCell` at `Int` coordinates; negative coordinates are skipped.  (Python
would wrap a negative index; no call site reaches one.) -/
def setCellI (grid : List (List Bool)) (y x : Int) : List (List Bool) :=
  if 0 ≤ y ∧ 0 ≤ x then setCell grid y.toNat x.toNat else grid

/-- The score table of `Tetris.update_score`; `clear_lines` only calls
`update_score` when `lines_cleared > 0`, and the table defaults to `0`, so
unconditionally adding the table entry is the same. -/
def scoreTable (linesCleared : Nat) : Nat :=
  match linesCleared with
  | 1 => 100
  | 2 => 300
  | 3 => 500
  | 4 => 800
  | _ => 0

/-- `Tetris.clear_lines`, as a pure function on the grid: scan rows
`0 .. gridH-1` top-down, keep the non-full ones in order, count the full
ones, then insert empty rows at the top until the grid has `gridH` rows
again.  Returns the new grid and the number of cleared rows.  (Python indexes
`self.grid[y]` directly; rows beyond the list's end — impossible at the call
sites, where the grid always has `gridH` rows — are read as `[]` here.) -/
def clear_lines (gridW gridH : Nat) (grid : List (List Bool)) :
    List (List Bool) × Nat :=
  let res := (List.range gridH).foldl
    (fun (acc : List (List Bool) × Nat) (y : Nat) =>
      if rowFull (grid.getD y []) then (acc.1, acc.2 + 1)
      else (acc.1 ++ [grid.getD y []], acc.2))
    ([], 0)
  (List.replicate (gridH - res.1.length) (List.replicate gridW false) ++ res.1, res.2)

/-- `Player._simulate_row_clearing`: scan rows bottom-to-top, prepend the
non-full ones to `rows_to_keep` (so they end up in original order), count the
full ones, and stack that many empty rows on top. -/
def simulate_row_clearing (gridW gridH : Nat) (tempGrid : List (List Bool)) :
    List (List Bool) × Nat :=
  let res := ((List.range gridH).reverse).foldl
    (fun (acc : List (List Bool) × Nat) (r : Nat) =>
      if rowFull (tempGrid.getD r []) then (acc.1, acc.2 + 1)
      else (tempGrid.getD r [] :: acc.1, acc.2))
    ([], 0)
  (List.replicate res.2 (List.replicate gridW false) ++ res.1, res.2)

/-- `Tetris.place_shape` followed by the `clear_lines` it triggers: lock the
current shape's occupied cells into the grid, clear full rows, add the score
delta (the score-label update is UI only). -/
def place_shape (st : PState) : PState :=
  let locked := (List.range st.currentShape.length).foldl
    (fun g y =>
      (List.range ((st.currentShape.getD y []).length)).foldl
        (fun g2 x =>
          if (st.currentShape.getD y []).getD x false then
            setCellI g2 (st.currentY + (y : Int)) (st.currentX + (x : Int))
          else g2)
        g)
    st.grid
  let cleared := clear_lines grid_width grid_height locked
  { st with grid := cleared.1, score := st.score + scoreTable cleared.2 }

/-- `Player.new_shape` with the randomly drawn shape passed explicitly:
install the shape centered at the top and reset the AI state
(`best_move = None`, `current_rotation_count = 0`). -/
def new_shape (st : PState) (shape : List (List Bool)) : PState :=
  { st with
    currentShape := shape,
    currentX := (grid_width : Int) / 2 - ((shape.headD []).length : Int) / 2,
    currentY := 0,
    bestMove := none,
    currentRotationCount := 0 }

/-- `Tetris.game_over` as `Player` runs it (`auto_restart = True`, so it calls
`restart_game`): empty the grid, zero the score, spawn a fresh shape, and keep
the game running. -/
def game_over (st : PState) (spawn : List (List Bool)) : PState :=
  let st1 := new_shape
    { st with
      grid := List.replicate grid_height (List.replicate grid_width false),
      score := 0 }
    spawn
  { st1 with gameRunning := true }

/-- `Player.move_down` with the shapes spawned this step passed explicitly
(`spawn1` for the regular respawn, `spawn2` for the respawn inside the
auto-restarting `game_over`).  Returns the new state and the `placed` flag. -/
def move_down (st : PState) (spawn1 spawn2 : List (List Bool)) : PState × Bool :=
  if !st.gameRunning then (st, false)
  else
    let st1 : PState := { st with currentY := st.currentY + 1 }
    if !check_collision st1 then (st1, false)
    else
      let st2 : PState := { st1 with currentY := st1.currentY - 1 }
      let st3 := place_shape st2
      if st3.gameRunning then
        let st4 := new_shape st3 spawn1
        if check_collision st4 then (game_over st4 spawn2, true) else (st4, true)
      else (st3, true)

/-- The `while True` loop of `Player._simulate_block_drop`, with explicit
fuel.  The inner nested scan of the source tests, cell by cell, exactly the
collision predicate at anchor `(tempX, simY + 1)`, so it is rendered with
`collides`.  The source loop terminates whenever the matrix has an occupied
cell (the bottom boundary then collides by anchor `gridH - 1` at the latest),
so any fuel above `gridH` is never exhausted in that case; on a fully empty
matrix the Python loop diverges and the fuel case is the (unreachable under
the claims' hypotheses) stand-in. -/
def dropLoop (gridW gridH : Nat) (grid rotated : List (List Bool)) (tempX : Int) :
    Nat → Nat → Nat
  | 0, simY => simY
  | fuel + 1, simY =>
    if collides gridW gridH grid rotated tempX ((simY : Int) + 1) then simY
    else dropLoop gridW gridH grid rotated tempX fuel (simY + 1)

/-- `Player._simulate_block_drop`: starting at `sim_y = 0`, step down while
the position one row below is collision-free; return the final `sim_y`. -/
def simulate_block_drop (gridW gridH : Nat) (grid rotated : List (List Bool))
    (tempX : Int) : Nat :=
  dropLoop gridW gridH grid rotated tempX (gridH + 1) 0

/-- `Player._check_start_position_blocked`.  The source makes two scans per
shape row: the first tests each occupied cell, bounds-guarded in both
coordinates; the second (a redundant comprehension in the source) rechecks the
row without the `check_y < grid_height` guard.  Both are translated; row reads
beyond the grid — unreachable for catalog shapes of at most 4 rows on a
20-row grid, where Python would raise — read as empty. -/
def check_start_position_blocked (gridW gridH : Nat) (grid rotated : List (List Bool))
    (tempX : Int) : Bool :=
  (List.range rotated.length).any fun y =>
    ((List.range ((rotated.getD y []).length)).any fun x =>
      (rotated.getD y []).getD x false &&
        (decide (y < gridH) && decide ((0 : Int) ≤ tempX + (x : Int)) &&
         decide (tempX + (x : Int) < (gridW : Int)) &&
         cellAtI grid (y : Int) (tempX + (x : Int)))) ||
    ((List.range ((rotated.getD y []).length)).any fun x =>
      (rotated.getD y []).getD x false &&
        (decide ((0 : Int) ≤ tempX + (x : Int)) &&
         decide (tempX + (x : Int) < (gridW : Int)) &&
         cellAtI grid (y : Int) (tempX + (x : Int))))

/-- `Player._check_game_over_potential`: after the simulated drop, an
in-bounds occupied target cell means overlap; the out-of-bounds branch only
fires for `place_y < 0`, impossible here since `sim_y ≥ 0` and shape rows are
indexed from 0 (the source comment says the same). -/
def check_game_over_potential (gridW gridH : Nat) (grid rotated : List (List Bool))
    (tempX : Int) (simY : Nat) : Bool :=
  (List.range rotated.length).any fun y =>
    (List.range ((rotated.getD y []).length)).any fun x =>
      (rotated.getD y []).getD x false &&
        (if simY + y < gridH ∧ 0 ≤ tempX + (x : Int) ∧ tempX + (x : Int) < (gridW : Int)
         then cellAtI grid ((simY + y : Nat) : Int) (tempX + (x : Int))
         else decide (((simY + y : Nat) : Int) < 0))

/-- `Player._create_simulated_board`: copy the live grid and mark the shape's
occupied cells (bounds-guarded) with a filled marker. -/
def create_simulated_board (gridW gridH : Nat) (grid rotated : List (List Bool))
    (tempX : Int) (simY : Nat) : List (List Bool) :=
  (List.range rotated.length).foldl
    (fun g y =>
      (List.range ((rotated.getD y []).length)).foldl
        (fun g2 x =>
          if (rotated.getD y []).getD x false ∧ simY + y < gridH ∧
              0 ≤ tempX + (x : Int) ∧ tempX + (x : Int) < (gridW : Int)
          then setCell g2 (simY + y) (tempX + (x : Int)).toNat
          else g2)
        g)
    grid

/-- One entry of `Player._precalculate_shape_properties`. -/
structure ShapeProp where
  rotated : List (List Bool)
  rotState : Nat
  minX : Int
  maxX : Int
deriving DecidableEq, Repr

/-- The occupied-cell list
`[(x, y) for y, row in enumerate(rotated) for x, cell in enumerate(row) if cell]`. -/
def occupiedCells (shape : List (List Bool)) : List (Nat × Nat) :=
  ((List.range shape.length).map fun y =>
    ((List.range ((shape.getD y []).length)).filterMap fun x =>
      if (shape.getD y []).getD x false then some (x, y) else none)).flatten

/-- `Player._precalculate_shape_properties`: for each target rotation state
0–3, rotate the current shape `(rot_state - initial_rotation + 4) % 4` times,
drop degenerate matrices and matrices with no occupied cell, and record the
anchor-column range `[-min_x, grid_width - 1 - max_x]` keeping every occupied
cell on the board.  (The `try/except IndexError` is again dead code.) -/
def precalculate_shape_properties (currentShape : List (List Bool))
    (initialRotation : Nat) (gridW : Nat) : List ShapeProp :=
  (List.range 4).filterMap fun (rotState : Nat) =>
    let rotations := (((rotState : Int) - (initialRotation : Int) + 4) % 4).toNat
    let rotated := rotate90^[rotations] currentShape
    if rotated.isEmpty || (rotated.headD []).isEmpty then none
    else
      let cells := occupiedCells rotated
      if cells.isEmpty then none
      else
        some
          { rotated := rotated,
            rotState := rotState,
            minX := -(((cells.map Prod.fst).min?.getD 0 : Nat) : Int),
            maxX := (gridW : Int) - 1 - (((cells.map Prod.fst).max?.getD 0 : Nat) : Int) }

/-- Python `range(lo, hi + 1)` over integers, as a list. -/
def intRange (lo hi : Int) : List Int :=
  (List.range (hi + 1 - lo).toNat).map fun k => lo + (k : Int)

/-- The per-column height scan of `Player.evaluate_board_state`: walk rows
top-down, and at the first occupied cell record `grid_height - y`; an empty
column keeps height `0`. -/
def columnHeight (gridH : Nat) (grid : List (List Bool)) (x : Nat) : Nat :=
  match (List.range gridH).find? (fun y => cellAt grid y x) with
  | some y => gridH - y
  | none => 0

/-- The per-column hole count of `Player.evaluate_board_state`: when the
column has a topmost occupied cell at row `y` (so `col_height = gridH - y`),
count the in-bounds empty cells in rows `gridH - col_height + 1 .. gridH - 1`,
i.e. strictly below the topmost occupied cell.  The in-bounds guard
(`y < len(grid) and x < len(grid[y])`) is part of the counted condition. -/
def columnHoles (gridH : Nat) (grid : List (List Bool)) (x : Nat) : Nat :=
  match (List.range gridH).find? (fun y => cellAt grid y x) with
  | some yTop =>
    ((List.range' (yTop + 1) (gridH - (yTop + 1))).filter fun y =>
      decide (y < grid.length) && decide (x < (grid.getD y []).length) &&
        !(grid.getD y []).getD x false).length
  | none => 0

/-- The `heights` array of `Player.evaluate_board_state`; entry `x` is
`columnHeight` of column `x`, and all later reads of the array are in range,
so they are rendered as `columnHeight` applications. -/
def aggHeight (gridW gridH : Nat) (grid : List (List Bool)) : Nat :=
  ((List.range gridW).map fun x => columnHeight gridH grid x).sum

/-- Total hole count, `holes` in `Player.evaluate_board_state`. -/
def holesTotal (gridW gridH : Nat) (grid : List (List Bool)) : Nat :=
  ((List.range gridW).map fun x => columnHoles gridH grid x).sum

/-- `bumpiness`: the sum over `i in range(grid_width - 1)` of
`abs(heights[i] - heights[i+1])`. -/
def bumpiness (gridW gridH : Nat) (grid : List (List Bool)) : Nat :=
  ((List.range (gridW - 1)).map fun i =>
    Nat.dist (columnHeight gridH grid i) (columnHeight gridH grid (i + 1))).sum

/-- The `well_depths` array: inside the same `for i in range(grid_width - 1)`
loop, when `0 < i < grid_width - 2` and column `i` is strictly lower than both
neighbors, slot `i - 1` is set to `min(heights[i-1], heights[i+1]) - heights[i]`.
Each slot is written at most once (slot `i - 1` only by loop index `i`) and
unwritten slots stay `0`, so the array's sum is the sum of the per-index
contributions below. -/
def wellScore (gridW gridH : Nat) (grid : List (List Bool)) : Nat :=
  ((List.range (gridW - 1)).map fun i =>
    if 0 < i ∧ i < gridW - 2 ∧
        columnHeight gridH grid i < columnHeight gridH grid (i - 1) ∧
        columnHeight gridH grid i < columnHeight gridH grid (i + 1)
    then min (columnHeight gridH grid (i - 1)) (columnHeight gridH grid (i + 1)) -
      columnHeight gridH grid i
    else 0).sum

/-- `Player.evaluate_board_state`: the weighted heuristic score, with the
float weights `-0.7, 4.0, -1.7, -0.3, 0.2` modelled as exact rationals. -/
def evaluate_board_state (gridW gridH : Nat) (grid : List (List Bool))
    (linesCleared : Nat) : ℚ :=
  (-7 / 10) * (aggHeight gridW gridH grid : ℚ) +
    4 * ((linesCleared : ℚ) ^ 2) +
    (-17 / 10) * (holesTotal gridW gridH grid : ℚ) +
    (-3 / 10) * (bumpiness gridW gridH grid : ℚ) +
    (2 / 10) * (wellScore gridW gridH grid : ℚ)

/-- `Player.get_possible_moves`: enumerate `(rotation_state, anchor_column)`
candidates, reject those blocked at the spawn rows or overlapping after the
simulated drop, and score the survivors on the hypothetical cleared board. -/
def get_possible_moves (st : PState) : List MoveC :=
  if st.currentShape.isEmpty then []
  else
    ((precalculate_shape_properties st.currentShape st.currentRotationCount grid_width).map
      fun prop =>
        (intRange prop.minX prop.maxX).filterMap fun xPos =>
          if check_start_position_blocked grid_width grid_height st.grid prop.rotated xPos
          then none
          else
            let simY := simulate_block_drop grid_width grid_height st.grid prop.rotated xPos
            if check_game_over_potential grid_width grid_height st.grid prop.rotated xPos simY
            then none
            else
              let tempGrid :=
                create_simulated_board grid_width grid_height st.grid prop.rotated xPos simY
              let clearedSim := simulate_row_clearing grid_width grid_height tempGrid
              some
                { rotationTargetState := prop.rotState,
                  x := xPos,
                  score := evaluate_board_state grid_width grid_height clearedSim.1 clearedSim.2 }).flatten

/-- Python `max(moves, key=lambda m: m["score"])` on a non-empty list: the
first element whose score no later element strictly exceeds. -/
def pyMaxMove : List MoveC → Option MoveC
  | [] => none
  | m :: ms => some (ms.foldl (fun best cand => if cand.score > best.score then cand else best) m)

/-- `Player.ai_move`: guard, then store the best-scoring candidate (or `None`
when the candidate list is empty). -/
def ai_move (st : PState) : PState :=
  if st.currentShape.isEmpty || !st.gameRunning then { st with bestMove := none }
  else { st with bestMove := pyMaxMove (get_possible_moves st) }

/-- `Player.ai_loop`, one invocation (the `master.after` rescheduling is the
tick cadence, not state).  The source's recalculation guard is
`self.best_move is None or self.current_shape != current_piece`, where
`current_piece` was just assigned `self.current_shape`, so the second disjunct
is identically false and the guard reduces to `best_move is None`. -/
def ai_tick (st : PState) (spawn1 spawn2 : List (List Bool)) : PState :=
  if !st.gameRunning then st
  else
    let st1 := if st.bestMove.isNone then ai_move st else st
    match st1.bestMove with
    | some mv =>
      if st1.currentRotationCount ≠ mv.rotationTargetState then
        let st2 := rotate_shape st1
        if st2.currentRotationCount ≠ mv.rotationTargetState then
          { st2 with bestMove := none }
        else st2
      else if st1.currentX ≠ mv.x then
        move_sideways st1 (if mv.x > st1.currentX then 1 else -1)
      else
        (move_down st1 spawn1 spawn2).1
    | none =>
      if st1.gameRunning then (move_down st1 spawn1 spawn2).1 else st1

/-! ## Concrete fixtures used by witnesses and counterexamples -/

/-- The empty 20 × 10 board, as built in `Tetris.__init__`. -/
def emptyGrid : List (List Bool) := List.replicate 20 (List.replicate 10 false)

/-- The I piece `((1, 1, 1, 1),)` from the shape catalog. -/
def shapeI : List (List Bool) := [[true, true, true, true]]

/-- The J piece `((1, 0, 0), (1, 1, 1))` from the shape catalog. -/
def shapeJ : List (List Bool) := [[true, false, false], [true, true, true]]

/-- A board whose only occupied cell is at the top-left corner `(0, 0)`. -/
def topGrid : List (List Bool) :=
  (true :: List.replicate 9 false) :: List.replicate 19 (List.replicate 10 false)

/-- A board whose only occupied cell is at row 2, column 0: an overhang over
an otherwise empty column. -/
def overhangGrid : List (List Bool) :=
  List.replicate 2 (List.replicate 10 false) ++
    [true :: List.replicate 9 false] ++ List.replicate 17 (List.replicate 10 false)

/-- Bottom rows giving column heights `[2,0,2,0,0,0,0,2,0,2]`: wells at
columns 1 and 8 (each strictly lower than both neighbors). -/
def wellRow : List Bool :=
  [true, false, true, false, false, false, false, true, false, true]

/-- Board with `wellRow` as its two bottom rows. -/
def wellGrid : List (List Bool) :=
  List.replicate 18 (List.replicate 10 false) ++ [wellRow, wellRow]

/-- A fully occupied row. -/
def fullRow : List Bool := List.replicate 10 true

/-- A board whose top row is fully occupied (everything else empty): every
placement candidate of every piece is blocked at its spawn rows. -/
def rowZeroFullGrid : List (List Bool) :=
  fullRow :: List.replicate 19 (List.replicate 10 false)

/-- A held Placement Search target: rotation state 0, anchor column 7. -/
def mvC1 : MoveC := { rotationTargetState := 0, x := 7, score := 0 }

/-- Move-Executor state in its translation phase: the I piece at anchor
column 5, row 0, target column 7, and an obstacle at `(0, 9)` so that the
one-column shift right (to columns 6–9) collides while the current position
(columns 5–8) does not. -/
def stC1 : PState :=
  { grid := (List.replicate 9 false ++ [true]) :: List.replicate 19 (List.replicate 10 false),
    currentShape := shapeI, currentX := 5, currentY := 0,
    score := 0, gameRunning := true, bestMove := some mvC1, currentRotationCount := 0 }

/-- A state with no held target whose piece cannot be placed anywhere:
the top row is full, so every candidate is start-blocked, while the live
I piece at row 5 still has empty rows beneath it. -/
def stC8 : PState :=
  { grid := rowZeroFullGrid, currentShape := shapeI, currentX := 3, currentY := 5,
    score := 0, gameRunning := true, bestMove := none, currentRotationCount := 0 }

/-- A live J piece on an empty board (rotation is unobstructed). -/
def stC7 : PState :=
  { grid := emptyGrid, currentShape := shapeJ, currentX := 4, currentY := 0,
    score := 0, gameRunning := true, bestMove := none, currentRotationCount := 0 }

/-- A live I piece on an empty board. -/
def stC10 : PState :=
  { grid := emptyGrid, currentShape := shapeI, currentX := 3, currentY := 0,
    score := 0, gameRunning := true, bestMove := none, currentRotationCount := 0 }

/-- Modelled from the spec's words, for comparison only (the code is the
authority): the well measure restricted to the interior columns excluding the
TWO columns nearest each edge, i.e. `2 ≤ i ≤ gridW - 3`, with the same
contribution rule. -/
def wellMeasureClaimed (gridW gridH : Nat) (grid : List (List Bool)) : Nat :=
  ((List.range (gridW - 1)).map fun i =>
    if 2 ≤ i ∧ i ≤ gridW - 3 ∧
        columnHeight gridH grid i < columnHeight gridH grid (i - 1) ∧
        columnHeight gridH grid i < columnHeight gridH grid (i + 1)
    then min (columnHeight gridH grid (i - 1)) (columnHeight gridH grid (i + 1)) -
      columnHeight gridH grid i
    else 0).sum

/-- A `(rotation_state, anchor_column)` candidate is rejected by
`get_possible_moves` iff it is blocked at its spawn rows or would overlap
after the simulated drop. -/
def candidateRejected (grid rotated : List (List Bool)) (xPos : Int) : Bool :=
  check_start_position_blocked grid_width grid_height grid rotated xPos ||
  check_game_over_potential grid_width grid_height grid rotated xPos
    (simulate_block_drop grid_width grid_height grid rotated xPos)

/-! ## Claim C10 -/

/-- C10 (confirmed): for every game state and direction `d ∈ {-1, +1}`, the
one-column sideways move is atomic: it never changes the board grid, the
score, the anchor row, or the shape; and either the shifted position is
collision-free and the anchor column changes by exactly `d`, or the shifted
position collides and the state is exactly as before the call.  In
particular a sideways move never locks the piece and never clears lines. -/
theorem claimC10 (st : PState) (d : Int) (hd : d = 1 ∨ d = -1) :
    (move_sideways st d).grid = st.grid ∧
    (move_sideways st d).score = st.score ∧
    (move_sideways st d).currentY = st.currentY ∧
    (move_sideways st d).currentShape = st.currentShape ∧
    ((check_collision { st with currentX := st.currentX + d } = false ∧
        (move_sideways st d).currentX = st.currentX + d) ∨
      (check_collision { st with currentX := st.currentX + d } = true ∧
        move_sideways st d = st)) := by
  clear hd
  have hms : move_sideways st d =
      if check_collision { st with currentX := st.currentX + d } then st
      else { st with currentX := st.currentX + d } := by
    by_cases h : check_collision { st with currentX := st.currentX + d }
    · simp only [move_sideways, h, if_true]
      simp [Int.add_sub_cancel]
    · simp [move_sideways, h]
  by_cases h : check_collision { st with currentX := st.currentX + d }
  · rw [hms, if_pos h]
    exact ⟨rfl, rfl, rfl, rfl, Or.inr ⟨h, rfl⟩⟩
  · rw [hms, if_neg h]
    exact ⟨rfl, rfl, rfl, rfl, Or.inl ⟨Bool.eq_false_iff.mpr h, rfl⟩⟩

/-- Witness for C10 at a concrete state: applying the theorem at `stC10`
with `d = 1`. -/
theorem claimC10_witness :
    (move_sideways stC10 1).grid = stC10.grid ∧
    (move_sideways stC10 1).score = stC10.score ∧
    (move_sideways stC10 1).currentY = stC10.currentY ∧
    (move_sideways stC10 1).currentShape = stC10.currentShape ∧
    ((check_collision { stC10 with currentX := stC10.currentX + 1 } = false ∧
        (move_sideways stC10 1).currentX = stC10.currentX + 1) ∨
      (check_collision { stC10 with currentX := stC10.currentX + 1 } = true ∧
        move_sideways stC10 1 = stC10)) :=
  claimC10 stC10 1 (Or.inl rfl)

/-! ## Claim C1 -/

/-- C1 counterexample: in state `stC1` the Move Executor holds target column 7
with matching rotation, the one-column shift toward the target (direction +1)
collides, yet the tick leaves the held target in place (`best_move` is still
the same target, not `None`), and in fact leaves the whole state unchanged —
the claimed invalidate-and-re-search does not happen. -/
theorem claimC1_counterexample :
    check_collision { stC1 with currentX := stC1.currentX + 1 } = true ∧
    stC1.currentX ≠ mvC1.x ∧
    stC1.currentRotationCount = mvC1.rotationTargetState ∧
    (ai_tick stC1 shapeI shapeI).bestMove = some mvC1 ∧
    ai_tick stC1 shapeI shapeI = stC1 := by
  refine ⟨by decide, by decide, by decide, by decide, by decide⟩

/-- C1 (corrected): when the Move Executor holds a target, the rotation state
matches, the anchor column differs from the target column, and the one-column
shift toward the target (direction = sign of the difference) collides, the
executor does NOT invalidate the held target: the shift is silently reverted,
the whole state (held target included) is unchanged, and the executor will
retry the same shift on the next tick.  Only a failed rotation invalidates
the target. -/
theorem claimC1_amended (st : PState) (mv : MoveC) (sp1 sp2 : List (List Bool))
    (hrun : st.gameRunning = true) (hbm : st.bestMove = some mv)
    (hrot : st.currentRotationCount = mv.rotationTargetState)
    (hx : st.currentX ≠ mv.x)
    (hcol : check_collision
      { st with currentX := st.currentX + (if mv.x > st.currentX then 1 else -1) } = true) :
    ai_tick st sp1 sp2 = st ∧ (ai_tick st sp1 sp2).bestMove = some mv := by
  obtain ⟨g, cs, cx, cy, sc, gr, bm, rc⟩ := st
  dsimp only at hrun hbm hrot hx hcol ⊢
  subst hrun hbm hrot
  have hmain : ai_tick ⟨g, cs, cx, cy, sc, true, some mv, mv.rotationTargetState⟩ sp1 sp2 =
      ⟨g, cs, cx, cy, sc, true, some mv, mv.rotationTargetState⟩ := by
    simp [ai_tick, hx, move_sideways, hcol, Int.add_sub_cancel]
  exact ⟨hmain, by rw [hmain]⟩

/-- Witness for the corrected C1, applying it at the concrete state `stC1`. -/
theorem claimC1_witness :
    ai_tick stC1 shapeI shapeI = stC1 ∧ (ai_tick stC1 shapeI shapeI).bestMove = some mvC1 :=
  claimC1_amended stC1 mvC1 shapeI shapeI rfl rfl rfl (by decide) (by decide)

/-! ## Claim C7 -/

/-- C7 (confirmed): for every running game state with a live piece, a rotation
attempt applies the rotation operator once; if the rotated shape does not
collide at the current anchor the rotation is kept with the anchor unchanged.
If it collides, the horizontal offsets `+1, -2, +2, -1` are tried in that
fixed order, each from the original anchor (the anchor is reverted between
attempts), and the first collision-free offset is kept as the new anchor; if
all four fail, shape and anchor are restored exactly (the state is unchanged).
On success — with or without a kick — the tracked rotation counter is
incremented modulo 4; on failure it is unchanged. -/
theorem claimC7 (st : PState) (hrun : st.gameRunning = true) (hsh : st.currentShape ≠ []) :
    (check_collision { st with currentShape := rotate90 st.currentShape } = false →
      rotate_shape st =
        { st with
          currentShape := rotate90 st.currentShape,
          currentRotationCount := (st.currentRotationCount + 1) % 4 }) ∧
    (check_collision { st with currentShape := rotate90 st.currentShape } = true →
      match ([1, -2, 2, -1] : List Int).find? (fun dx =>
          !check_collision
            { st with currentShape := rotate90 st.currentShape, currentX := st.currentX + dx }) with
      | some dx =>
        rotate_shape st =
          { st with
            currentShape := rotate90 st.currentShape,
            currentX := st.currentX + dx,
            currentRotationCount := (st.currentRotationCount + 1) % 4 }
      | none => rotate_shape st = st) := by
  obtain ⟨g, cs, cx, cy, sc, gr, bm, rc⟩ := st
  dsimp only at hrun hsh ⊢
  subst hrun
  have hemp : cs.isEmpty = false := by
    cases cs with
    | nil => exact absurd rfl hsh
    | cons a l => rfl
  constructor
  · intro hc
    simp [rotate_shape, hemp, hc]
  · intro hc
    by_cases b1 : check_collision ⟨g, rotate90 cs, cx + 1, cy, sc, true, bm, rc⟩
    all_goals by_cases b2 : check_collision ⟨g, rotate90 cs, cx + -2, cy, sc, true, bm, rc⟩
    all_goals by_cases b3 : check_collision ⟨g, rotate90 cs, cx + 2, cy, sc, true, bm, rc⟩
    all_goals by_cases b4 : check_collision ⟨g, rotate90 cs, cx + -1, cy, sc, true, bm, rc⟩
    all_goals simp [rotate_shape, tryKicks, hemp, hc, b1, b2, b3, b4, List.find?, Int.add_sub_cancel]

/-- Witness for C7 at the concrete state `stC7` (J piece on an empty board):
the rotation does not collide, so it is kept, the anchor is unchanged, and
the rotation counter goes from 0 to 1. -/
theorem claimC7_witness :
    rotate_shape stC7 =
      { stC7 with
        currentShape := rotate90 stC7.currentShape,
        currentRotationCount := (stC7.currentRotationCount + 1) % 4 } :=
  (claimC7 stC7 rfl (by decide)).1 (by decide)

/-! ## Claim C6 -/

/-- Closed form of the top-down keep/count fold in `clear_lines`: the kept
rows are the non-full rows in order, the count is the number of full rows. -/
lemma keep_foldl (p : Nat → Bool) (row : Nat → List Bool) (l : List Nat) :
    ∀ acc : List (List Bool) × Nat,
      l.foldl (fun (acc : List (List Bool) × Nat) (y : Nat) =>
          if p y then (acc.1, acc.2 + 1) else (acc.1 ++ [row y], acc.2)) acc =
        (acc.1 ++ ((l.filter fun y => !p y).map row),
          acc.2 + (l.filter p).length) := by
  induction l with
  | nil => intro acc; simp
  | cons a t ih =>
    intro acc
    by_cases h : p a
    · simp only [List.foldl_cons, if_pos h, ih, List.filter_cons, h, Bool.not_true]
      refine Prod.ext rfl ?_
      simp only [Bool.cond_eq_if, if_true, if_false, List.length_cons]
      omega
    · have hb : p a = false := Bool.eq_false_iff.mpr h
      simp only [List.foldl_cons, if_neg h, ih, List.filter_cons, hb, Bool.not_false]
      refine Prod.ext ?_ rfl
      simp [Bool.cond_eq_if]

/-- Closed form of the bottom-up keep/count fold in `_simulate_row_clearing`
(after `foldl` over the reversed index list is turned into a `foldr`). -/
lemma keep_foldr (p : Nat → Bool) (row : Nat → List Bool) (l : List Nat) :
    l.foldr (fun (r : Nat) (acc : List (List Bool) × Nat) =>
        if p r then (acc.1, acc.2 + 1) else (row r :: acc.1, acc.2)) ([], 0) =
      ((l.filter fun y => !p y).map row, (l.filter p).length) := by
  induction l with
  | nil => simp
  | cons a t ih =>
    by_cases h : p a
    · simp only [List.foldr_cons, if_pos h, ih, List.filter_cons, h, Bool.not_true]
      refine Prod.ext rfl ?_
      simp [Bool.cond_eq_if]
    · have hb : p a = false := Bool.eq_false_iff.mpr h
      simp only [List.foldr_cons, if_neg h, ih, List.filter_cons, hb, Bool.not_false]
      refine Prod.ext ?_ rfl
      simp [Bool.cond_eq_if]

/-- C6 (confirmed): for every grid — in particular every grid of the
session's 20-row × 10-column dimensions — the live Board's line-clear pass
(`Tetris.clear_lines`) and the search's line-clear simulation
(`Player._simulate_row_clearing`) compute the same result: both remove
exactly the rows in which every cell is occupied, keep the remaining rows in
their relative order, insert the same number of empty rows at the top, and
report the same cleared-row count.  The second conjunct exhibits that common
closed form explicitly. -/
theorem claimC6 (gridW gridH : Nat) (grid : List (List Bool)) :
    clear_lines gridW gridH grid = simulate_row_clearing gridW gridH grid ∧
    clear_lines gridW gridH grid =
      (List.replicate (((List.range gridH).filter fun y => rowFull (grid.getD y [])).length)
          (List.replicate gridW false) ++
        (((List.range gridH).filter fun y => !rowFull (grid.getD y [])).map fun y => grid.getD y []),
        ((List.range gridH).filter fun y => rowFull (grid.getD y [])).length) := by
  have e1 := keep_foldl (fun y => rowFull (grid.getD y [])) (fun y => grid.getD y [])
    (List.range gridH) ([], 0)
  have e2 := keep_foldr (fun y => rowFull (grid.getD y [])) (fun y => grid.getD y [])
    (List.range gridH)
  have hlen : gridH =
      ((List.range gridH).filter fun y => rowFull (grid.getD y [])).length +
        ((List.range gridH).filter fun y => !rowFull (grid.getD y [])).length := by
    have := (List.range gridH).length_eq_length_filter_add
      (fun y => rowFull (grid.getD y []))
    simpa using this
  have h2 : clear_lines gridW gridH grid =
      (List.replicate (((List.range gridH).filter fun y => rowFull (grid.getD y [])).length)
          (List.replicate gridW false) ++
        (((List.range gridH).filter fun y => !rowFull (grid.getD y [])).map fun y => grid.getD y []),
        ((List.range gridH).filter fun y => rowFull (grid.getD y [])).length) := by
    simp only [clear_lines]
    rw [e1]
    dsimp only
    simp only [List.nil_append, Nat.zero_add]
    refine Prod.ext ?_ rfl
    dsimp only
    congr 2
    rw [List.length_map]
    omega
  have h3 : simulate_row_clearing gridW gridH grid =
      (List.replicate (((List.range gridH).filter fun y => rowFull (grid.getD y [])).length)
          (List.replicate gridW false) ++
        (((List.range gridH).filter fun y => !rowFull (grid.getD y [])).map fun y => grid.getD y []),
        ((List.range gridH).filter fun y => rowFull (grid.getD y [])).length) := by
    simp only [simulate_row_clearing, List.foldl_reverse]
    rw [e2]
  exact ⟨h2.trans h3.symm, h2⟩

/-! ## Claim C2 -/

/-- A `getD` read that returns `true` is an in-range read. -/
lemma getD_true_lt {l : List Bool} {n : Nat} (h : l.getD n false = true) : n < l.length := by
  by_contra hn
  rw [List.getD_eq_getElem?_getD, List.getElem?_eq_none (by omega)] at h
  simp at h

/-- A matrix with at least one occupied cell collides at any anchor row at or
below the bottom boundary: the occupied cell's board row is `≥ gridH`. -/
lemma collides_of_bottom (gridW gridH : Nat) (grid rotated : List (List Bool))
    (tempX : Int) (cy : Int)
    (hnd : ∃ y x, ((rotated.getD y []).getD x false) = true)
    (hcy : (gridH : Int) ≤ cy) :
    collides gridW gridH grid rotated tempX cy = true := by
  obtain ⟨y, x, hc⟩ := hnd
  have hy : y < rotated.length := by
    by_contra hy
    have hrow : rotated.getD y [] = ([] : List Bool) := by
      rw [List.getD_eq_getElem?_getD, List.getElem?_eq_none (by omega)]
      rfl
    rw [hrow] at hc
    simp at hc
  have hx : x < (rotated.getD y []).length := getD_true_lt hc
  unfold collides
  refine List.any_eq_true.mpr ⟨y, List.mem_range.mpr hy, ?_⟩
  refine List.any_eq_true.mpr ⟨x, List.mem_range.mpr hx, ?_⟩
  rw [hc]
  have h3 : decide ((gridH : Int) ≤ cy + (y : Int)) = true := by
    refine decide_eq_true ?_
    have : (0 : Int) ≤ (y : Int) := Int.natCast_nonneg y
    omega
  rw [h3]
  simp

/-- Invariant of the drop loop: provided a collision occurs within the given
fuel, the loop returns the least anchor at or after the start whose next row
collides, and every strictly earlier step was collision-free. -/
lemma dropLoop_spec (gridW gridH : Nat) (grid rotated : List (List Bool)) (tempX : Int) :
    ∀ (fuel s : Nat),
      (∃ j, j < fuel ∧
        collides gridW gridH grid rotated tempX (((s + j : Nat) : Int) + 1) = true) →
      collides gridW gridH grid rotated tempX
          (((dropLoop gridW gridH grid rotated tempX fuel s : Nat) : Int) + 1) = true ∧
        s ≤ dropLoop gridW gridH grid rotated tempX fuel s ∧
        ∀ k, s ≤ k → k < dropLoop gridW gridH grid rotated tempX fuel s →
          collides gridW gridH grid rotated tempX (((k : Nat) : Int) + 1) = false := by
  intro fuel
  induction fuel with
  | zero => intro s h; obtain ⟨j, hj, _⟩ := h; omega
  | succ fuel ih =>
    intro s h
    by_cases hc : collides gridW gridH grid rotated tempX (((s : Nat) : Int) + 1) = true
    · have hr : dropLoop gridW gridH grid rotated tempX (fuel + 1) s = s := by
        unfold dropLoop
        rw [if_pos hc]
      rw [hr]
      exact ⟨hc, Nat.le_refl s, fun k h1 h2 => absurd (Nat.lt_of_le_of_lt h1 h2) (Nat.lt_irrefl s)⟩
    · have hcf : collides gridW gridH grid rotated tempX (((s : Nat) : Int) + 1) = false :=
        Bool.eq_false_iff.mpr hc
      have hr : dropLoop gridW gridH grid rotated tempX (fuel + 1) s =
          dropLoop gridW gridH grid rotated tempX fuel (s + 1) := by
        simp only [dropLoop]
        rw [if_neg hc]
      obtain ⟨j, hj, hCj⟩ := h
      have hj0 : j ≠ 0 := by
        intro h0
        rw [h0, Nat.add_zero] at hCj
        exact hc hCj
      have hnext : ∃ j', j' < fuel ∧
          collides gridW gridH grid rotated tempX (((s + 1 + j' : Nat) : Int) + 1) = true := by
        refine ⟨j - 1, by omega, ?_⟩
        have : s + 1 + (j - 1) = s + j := by omega
        rw [this]
        exact hCj
      obtain ⟨h1, h2, h3⟩ := ih (s + 1) hnext
      rw [hr]
      refine ⟨h1, by omega, ?_⟩
      intro k hk1 hk2
      rcases Nat.eq_or_lt_of_le hk1 with he | hl
      · rw [← he]
        exact hcf
      · exact h3 k hl hk2

/-- C2 counterexample: on `overhangGrid` (sole occupied cell at row 2 of
column 0) with the single-cell matrix `[[true]]` at anchor column 0 — a
non-degenerate matrix whose occupied cell stays inside `[0, 10)` — the Drop
Simulator returns anchor 1, yet anchor 19 also satisfies "no collision at the
anchor and collision at the anchor plus one", so the returned anchor is not
the maximal one with that property. -/
theorem claimC2_counterexample :
    simulate_block_drop 10 20 overhangGrid [[true]] 0 = 1 ∧
    collides 10 20 overhangGrid [[true]] 0 19 = false ∧
    collides 10 20 overhangGrid [[true]] 0 20 = true :=
  ⟨by decide, by decide, by decide⟩

/-- C2 (corrected): for every board snapshot, non-degenerate matrix and
horizontal anchor, the Drop Simulator returns the LEAST vertical anchor whose
next row collides: the Collision Oracle reports a collision at the result
plus one, and no collision at `k + 1` for any `k` below the result.
Consequently, whenever the spawn anchor 0 is itself collision-free, the
returned anchor is collision-free.  Re-running it on the same inputs yields
the same anchor (it is a pure function).  With an overhang the result need
not be the maximal anchor that is collision-free with a colliding successor
(see the counterexample). -/
theorem claimC2_amended (gridW gridH : Nat) (grid rotated : List (List Bool)) (tempX : Int)
    (hnd : ∃ y x, ((rotated.getD y []).getD x false) = true) :
    collides gridW gridH grid rotated tempX
        ((simulate_block_drop gridW gridH grid rotated tempX : Int) + 1) = true ∧
    (∀ k : Nat, k < simulate_block_drop gridW gridH grid rotated tempX →
        collides gridW gridH grid rotated tempX ((k : Int) + 1) = false) ∧
    (collides gridW gridH grid rotated tempX 0 = false →
        collides gridW gridH grid rotated tempX
          (simulate_block_drop gridW gridH grid rotated tempX : Int) = false) ∧
    simulate_block_drop gridW gridH grid rotated tempX =
      simulate_block_drop gridW gridH grid rotated tempX := by
  have hex : ∃ j, j < gridH + 1 ∧
      collides gridW gridH grid rotated tempX (((0 + j : Nat) : Int) + 1) = true := by
    refine ⟨gridH, Nat.lt_succ_self gridH, ?_⟩
    apply collides_of_bottom _ _ _ _ _ _ hnd
    push_cast
    omega
  have hsim : simulate_block_drop gridW gridH grid rotated tempX =
      dropLoop gridW gridH grid rotated tempX (gridH + 1) 0 := rfl
  obtain ⟨h1, _h2, h3⟩ := dropLoop_spec gridW gridH grid rotated tempX (gridH + 1) 0 hex
  rw [← hsim] at h1 h3
  refine ⟨h1, ?_, ?_, rfl⟩
  · intro k hk
    exact h3 k (Nat.zero_le k) hk
  · intro h0
    rcases Nat.eq_zero_or_pos (simulate_block_drop gridW gridH grid rotated tempX) with hr0 | hrpos
    · rw [hr0]
      exact_mod_cast h0
    · have hlt : simulate_block_drop gridW gridH grid rotated tempX - 1 <
        simulate_block_drop gridW gridH grid rotated tempX := by omega
      have := h3 (simulate_block_drop gridW gridH grid rotated tempX - 1) (Nat.zero_le _) hlt
      have hcast : (((simulate_block_drop gridW gridH grid rotated tempX - 1 : Nat) : Int) + 1) =
          ((simulate_block_drop gridW gridH grid rotated tempX : Nat) : Int) := by omega
      rw [hcast] at this
      exact this

/-- Witness for the corrected C2 on the overhang board: the returned anchor's
next row collides, and (the spawn being collision-free) the returned anchor
itself is collision-free. -/
theorem claimC2_witness :
    collides 10 20 overhangGrid [[true]] 0
        ((simulate_block_drop 10 20 overhangGrid [[true]] 0 : Int) + 1) = true ∧
    collides 10 20 overhangGrid [[true]] 0
        (simulate_block_drop 10 20 overhangGrid [[true]] 0 : Int) = false :=
  ⟨(claimC2_amended 10 20 overhangGrid [[true]] 0 ⟨0, 0, rfl⟩).1,
   (claimC2_amended 10 20 overhangGrid [[true]] 0 ⟨0, 0, rfl⟩).2.2.1 (by decide)⟩

/-! ## Claim C3 -/

/-- `List.find?` over a contiguous index range returns the least index
satisfying the predicate. -/
lemma find?_range'_least (p : Nat → Bool) :
    ∀ (n s y : Nat), s ≤ y → y < s + n → p y = true →
      (∀ y', s ≤ y' → y' < y → p y' = false) →
      (List.range' s n).find? p = some y := by
  intro n
  induction n with
  | zero => intro s y h1 h2 _ _; omega
  | succ n ih =>
    intro s y h1 h2 hp hmin
    rw [List.range'_succ, List.find?_cons]
    rcases Nat.eq_or_lt_of_le h1 with he | hl
    · rw [he, hp]
    · have hs : p s = false := hmin s (Nat.le_refl s) hl
      rw [hs]
      exact ih (s + 1) y hl (by omega) hp (fun y' hy1 hy2 => hmin y' (by omega) hy2)

/-- C3 counterexample: in `topGrid` the topmost occupied cell of column 0 is
at row 0, i.e. at distance 0 from the top of the grid, yet the evaluator's
per-column height for that column is 20 — the number of rows from the cell to
the bottom — and it is 20, not 0, that the aggregate-height term sums. -/
theorem claimC3_counterexample :
    cellAt topGrid 0 0 = true ∧
    columnHeight 20 topGrid 0 = 20 ∧
    aggHeight 10 20 topGrid = 20 :=
  ⟨by decide, by decide, by decide⟩

/-- C3 (corrected): the evaluator's per-column height is the grid height
minus the row index of the column's topmost occupied cell — the number of
rows from that cell down to the bottom of the grid, not its distance from the
top — and 0 for an empty column; this is the quantity summed into the
aggregate-height term. -/
theorem claimC3_amended (gridW gridH : Nat) (grid : List (List Bool)) (x : Nat) :
    (∀ y : Nat, y < gridH → cellAt grid y x = true →
      (∀ y', y' < y → cellAt grid y' x = false) →
      columnHeight gridH grid x = gridH - y) ∧
    ((∀ y : Nat, y < gridH → cellAt grid y x = false) →
      columnHeight gridH grid x = 0) ∧
    aggHeight gridW gridH grid =
      ((List.range gridW).map fun c => columnHeight gridH grid c).sum := by
  refine ⟨?_, ?_, rfl⟩
  · intro y hy hc hmin
    unfold columnHeight
    rw [List.range_eq_range',
      find?_range'_least (fun yy => cellAt grid yy x) gridH 0 y (Nat.zero_le y)
        (by omega) hc (fun y' _ hy2 => hmin y' hy2)]
  · intro hall
    unfold columnHeight
    rw [List.find?_eq_none.mpr ?_]
    intro z hz
    rw [List.mem_range] at hz
    simp [hall z hz]

/-- Witness for the corrected C3: in `topGrid` the topmost occupied cell of
column 0 is at row 0, and the amended theorem yields height `20 - 0 = 20`. -/
theorem claimC3_witness :
    columnHeight 20 topGrid 0 = 20 :=
  (claimC3_amended 10 20 topGrid 0).1 0 (by decide) (by decide)
    (fun y' h => absurd h (Nat.not_lt_zero y'))

/-! ## Claim C4 -/

/-- A default-valued list read is either a member of the list or the default. -/
lemma getD_mem_or {α : Type} (l : List α) (n : Nat) (d : α) :
    l.getD n d ∈ l ∨ l.getD n d = d := by
  rw [List.getD_eq_getElem?_getD]
  cases h : l[n]? with
  | none => exact Or.inr rfl
  | some a => exact Or.inl (List.getElem?_mem h)

/-- On a grid all of whose cells are empty, every cell read is empty. -/
lemma cellAt_of_allEmpty (grid : List (List Bool))
    (h : ∀ row ∈ grid, ∀ c ∈ row, c = false) (y x : Nat) :
    cellAt grid y x = false := by
  unfold cellAt
  rcases getD_mem_or grid y [] with hrow | hrow
  · rcases getD_mem_or (grid.getD y []) x false with hc | hc
    · exact h _ hrow _ hc
    · exact hc
  · rw [hrow]
    rfl

/-- On a fully empty grid, every column height is 0. -/
lemma columnHeight_of_allEmpty (gridH : Nat) (grid : List (List Bool))
    (h : ∀ row ∈ grid, ∀ c ∈ row, c = false) (x : Nat) :
    columnHeight gridH grid x = 0 := by
  unfold columnHeight
  rw [List.find?_eq_none.mpr ?_]
  intro z hz
  simp [cellAt_of_allEmpty grid h z x]

/-- C4 (confirmed): the Board Evaluator returns exactly the weighted sum
`W_h · Σheights + W_l · linesCleared² + W_o · holes + W_b · bumpiness +
W_w · Σwells` with the fixed weights `-0.7, 4.0, -1.7, -0.3, 0.2` (exact
rationals standing for the source's float literals); and on a fully empty
grid the height, hole, bumpiness and well terms are all 0, so the score
reduces to `4.0 · linesCleared²`. -/
theorem claimC4 (gridW gridH : Nat) (grid : List (List Bool)) (lc : Nat) :
    evaluate_board_state gridW gridH grid lc =
      (-7 / 10) * (aggHeight gridW gridH grid : ℚ) + 4 * ((lc : ℚ) ^ 2) +
        (-17 / 10) * (holesTotal gridW gridH grid : ℚ) +
        (-3 / 10) * (bumpiness gridW gridH grid : ℚ) +
        (2 / 10) * (wellScore gridW gridH grid : ℚ) ∧
    ((∀ row ∈ grid, ∀ c ∈ row, c = false) →
      aggHeight gridW gridH grid = 0 ∧ holesTotal gridW gridH grid = 0 ∧
        bumpiness gridW gridH grid = 0 ∧ wellScore gridW gridH grid = 0 ∧
        evaluate_board_state gridW gridH grid lc = 4 * ((lc : ℚ) ^ 2)) := by
  refine ⟨rfl, fun hall => ?_⟩
  have hch : ∀ x, columnHeight gridH grid x = 0 := columnHeight_of_allEmpty gridH grid hall
  have hagg : aggHeight gridW gridH grid = 0 := by
    unfold aggHeight
    refine List.sum_eq_zero ?_
    intro v hv
    rw [List.mem_map] at hv
    obtain ⟨i, _, hi⟩ := hv
    rw [← hi, hch]
  have hholes : holesTotal gridW gridH grid = 0 := by
    unfold holesTotal
    refine List.sum_eq_zero ?_
    intro v hv
    rw [List.mem_map] at hv
    obtain ⟨i, _, hi⟩ := hv
    rw [← hi]
    unfold columnHoles
    rw [List.find?_eq_none.mpr ?_]
    intro z hz
    simp [cellAt_of_allEmpty grid hall z i]
  have hbump : bumpiness gridW gridH grid = 0 := by
    unfold bumpiness
    refine List.sum_eq_zero ?_
    intro v hv
    rw [List.mem_map] at hv
    obtain ⟨i, _, hi⟩ := hv
    rw [← hi, hch, hch]
    exact Nat.dist_self 0
  have hwell : wellScore gridW gridH grid = 0 := by
    unfold wellScore
    refine List.sum_eq_zero ?_
    intro v hv
    rw [List.mem_map] at hv
    obtain ⟨i, _, hi⟩ := hv
    rw [← hi]
    simp [hch]
  refine ⟨hagg, hholes, hbump, hwell, ?_⟩
  unfold evaluate_board_state
  rw [hagg, hholes, hbump, hwell]
  push_cast
  ring

/-- Witness for C4 on the concrete empty 20 × 10 board with 3 cleared lines:
the score is the pure line-clear bonus `4 · 3²`. -/
theorem claimC4_witness :
    evaluate_board_state 10 20 emptyGrid 3 = 4 * ((3 : Nat) : ℚ) ^ 2 :=
  ((claimC4 10 20 emptyGrid 3).2 (by decide)).2.2.2.2

/-! ## Claim C5 -/

/-- C5 counterexample: on `wellGrid` (column heights `[2,0,2,0,0,0,0,2,0,2]`)
the evaluator's well term is 2 — column 1, the second column from the left
edge, contributes `min(2,2) - 0 = 2` — while the claim's range (excluding the
two columns nearest each edge) yields 0.  Moreover column 8 is strictly lower
than both its neighbors yet contributes nothing in the code (the code's range
is the asymmetric `0 < i < grid_width - 2`), so no symmetric reading of the
claim matches the code. -/
theorem claimC5_counterexample :
    wellScore 10 20 wellGrid = 2 ∧
    wellMeasureClaimed 10 20 wellGrid = 0 ∧
    columnHeight 20 wellGrid 8 < columnHeight 20 wellGrid 7 ∧
    columnHeight 20 wellGrid 8 < columnHeight 20 wellGrid 9 :=
  ⟨by decide, by decide, by decide, by decide⟩

/-- Bridge between a mapped-range list sum and the corresponding
`Finset.range` sum. -/
lemma sum_map_range (f : Nat → Nat) (n : Nat) :
    ((List.range n).map f).sum = ∑ i in Finset.range n, f i := by
  induction n with
  | zero => simp
  | succ n ih =>
    rw [List.range_succ, List.map_append, List.sum_append, Finset.sum_range_succ, ih]
    simp

/-- C5 (corrected): the evaluator's well term is the sum over the columns
`1 ≤ i < grid_width - 2` — excluding the leftmost column and the TWO
rightmost columns, not the two columns nearest each edge — of
`min(heights[i-1], heights[i+1]) - heights[i]` for each such column strictly
lower than both immediate neighbors. -/
theorem claimC5_amended (gridW gridH : Nat) (grid : List (List Bool)) :
    wellScore gridW gridH grid =
      ∑ i in Finset.Ico 1 (gridW - 2),
        (if columnHeight gridH grid i < columnHeight gridH grid (i - 1) ∧
            columnHeight gridH grid i < columnHeight gridH grid (i + 1)
         then min (columnHeight gridH grid (i - 1)) (columnHeight gridH grid (i + 1)) -
           columnHeight gridH grid i
         else 0) := by
  unfold wellScore
  rw [sum_map_range]
  rw [← Finset.sum_subset ?hsub ?hzero]
  · apply Finset.sum_congr rfl
    intro i hi
    rw [Finset.mem_Ico] at hi
    by_cases hA : columnHeight gridH grid i < columnHeight gridH grid (i - 1) ∧
        columnHeight gridH grid i < columnHeight gridH grid (i + 1)
    · rw [if_pos ⟨by omega, by omega, hA.1, hA.2⟩, if_pos hA]
    · rw [if_neg ?_, if_neg hA]
      intro hcon
      exact hA ⟨hcon.2.2.1, hcon.2.2.2⟩
  case hsub =>
    intro i hi
    rw [Finset.mem_Ico] at hi
    rw [Finset.mem_range]
    omega
  case hzero =>
    intro i hi hni
    rw [Finset.mem_range] at hi
    rw [Finset.mem_Ico] at hni
    rw [if_neg]
    intro hcon
    exact hni ⟨by omega, by omega⟩

/-! ## Claim C8 -/

/-- C8 counterexample: in `stC8` every candidate of the active I piece is
rejected (the top row is full), so Placement Search returns no candidate —
yet the tick does NOT report game over: the game is still running afterward,
the grid is untouched (no lock, no restart), the score is unchanged, and the
piece merely fell one row via the `move_down` fallback. -/
theorem claimC8_counterexample :
    get_possible_moves stC8 = [] ∧
    (ai_tick stC8 shapeI shapeI).gameRunning = true ∧
    (ai_tick stC8 shapeI shapeI).grid = stC8.grid ∧
    (ai_tick stC8 shapeI shapeI).currentY = stC8.currentY + 1 ∧
    (ai_tick stC8 shapeI shapeI).score = stC8.score :=
  ⟨by decide, by decide, by decide, by decide, by decide⟩

/-- C8 (corrected): when every `(rotation state, anchor column)` candidate is
rejected — blocked at its spawn rows or overlapping after the simulated
drop — Placement Search returns no candidates and no target is selected
(`best_move` becomes `None`); but the tick does not report game over: it
falls back to a plain one-row `move_down`, and game over can only arise later
inside that descent path (when the piece locks and the newly spawned piece
collides). -/
theorem claimC8_amended (st : PState) (sp1 sp2 : List (List Bool))
    (hrun : st.gameRunning = true) (hbm : st.bestMove = none)
    (hrej : ∀ p ∈ precalculate_shape_properties st.currentShape st.currentRotationCount grid_width,
      ∀ x ∈ intRange p.minX p.maxX, candidateRejected st.grid p.rotated x = true) :
    get_possible_moves st = [] ∧
    (ai_move st).bestMove = none ∧
    ai_tick st sp1 sp2 = (move_down (ai_move st) sp1 sp2).1 := by
  have hgpm : get_possible_moves st = [] := by
    unfold get_possible_moves
    by_cases hemp : st.currentShape.isEmpty
    · rw [if_pos hemp]
    · rw [if_neg hemp]
      rw [List.flatten_eq_nil_iff]
      intro l hl
      rw [List.mem_map] at hl
      obtain ⟨p, hp, hpl⟩ := hl
      rw [← hpl]
      rw [List.filterMap_eq_nil_iff]
      intro xPos hx
      have hrx := hrej p hp xPos hx
      unfold candidateRejected at hrx
      rw [Bool.or_eq_true] at hrx
      by_cases hsb : check_start_position_blocked grid_width grid_height st.grid p.rotated xPos
      · rw [if_pos hsb]
      · rw [if_neg hsb]
        have hgop : check_game_over_potential grid_width grid_height st.grid p.rotated xPos
            (simulate_block_drop grid_width grid_height st.grid p.rotated xPos) = true := by
          rcases hrx with h | h
          · exact absurd h hsb
          · exact h
        simp only [hgop, if_true]
  have hmove : (ai_move st).bestMove = none := by
    unfold ai_move
    by_cases hemp : st.currentShape.isEmpty || !st.gameRunning
    · rw [if_pos hemp]
    · rw [if_neg hemp]
      rw [hgpm]
      rfl
  have hrunmove : (ai_move st).gameRunning = true := by
    unfold ai_move
    by_cases hemp : st.currentShape.isEmpty || !st.gameRunning
    · rw [if_pos hemp]
      exact hrun
    · rw [if_neg hemp]
      exact hrun
  refine ⟨hgpm, hmove, ?_⟩
  simp only [ai_tick, hrun, Bool.not_true, Bool.false_eq_true, if_false, hbm,
    Option.isNone_none, if_true, hmove, hrunmove]

/-- Witness for the corrected C8 at the concrete state `stC8`, discharging
the every-candidate-rejected hypothesis by computation. -/
theorem claimC8_witness :
    get_possible_moves stC8 = [] ∧
    (ai_move stC8).bestMove = none ∧
    ai_tick stC8 shapeI shapeI = (move_down (ai_move stC8) shapeI shapeI).1 :=
  claimC8_amended stC8 shapeI shapeI rfl rfl (by decide)
